import Mathlib

/-!
# Aeron media driver, receive side: PublicationImage, Receiver, DriverConductorProxy

A shallow embedding of `aeron-driver/src/main/cpp/PublicationImage.h` and of the
interfaces that `aeron-driver/src/test/cpp/Mocks.h` declares, with the properties
of the receive-side specification stated and settled over it.

Conventions of the embedding.

* `std::int32_t` is the subtype `int32_t` of `Int`.
* A C++ member function is a Lean function taking the object first and returning
  `Option`: `none` stands for a call that does not return normally (a thrown
  exception, a failed assertion, an abort), `some` carries the returned value,
  paired with the object after the call for a function that returns a value.
* `PublicationImage` declares no data member, so its state type has no field.
-/

namespace aeron.driver

/-! ## Machine integers -/

/-- Least value of `std::int32_t`. -/
def INT32_MIN : Int := -2147483648

/-- Greatest value of `std::int32_t`. -/
def INT32_MAX : Int := 2147483647

/-- Values of `std::int32_t`: the integers of the closed range from `INT32_MIN` to `INT32_MAX`. -/
abbrev int32_t : Type := { x : Int // INT32_MIN ≤ x ∧ x ≤ INT32_MAX }

/-! ## PublicationImage.h -/

/-- Modelled from the spec: `concurrent/AtomicBuffer.h` is included by
`PublicationImage.h` but is not among the sources. The specification describes an
AtomicBuffer as a fixed-size, position-addressed byte region; here it is the list
of its bytes. `insertPacket` receives one by reference. -/
structure AtomicBuffer where
  bytes : List (Fin 256)
deriving DecidableEq

/-- The enumeration `PublicationImageStatus` of `PublicationImage.h`. -/
inductive PublicationImageStatus where
  | INIT
  | ACTIVE
  | INACTIVE
  | LINGER
deriving DecidableEq, Repr

/-- The class `PublicationImage`. The class declares no data member, and its
constructor `PublicationImage(){}` has an empty body: `PublicationImage.mk` is that
constructor. -/
structure PublicationImage where
deriving DecidableEq

/-- The member `sessionId()`: `return 0;`. -/
def PublicationImage.sessionId (self : PublicationImage) : Option (int32_t × PublicationImage) :=
  some (⟨0, by decide⟩, self)

/-- The member `streamId()`: `return 0;`. -/
def PublicationImage.streamId (self : PublicationImage) : Option (int32_t × PublicationImage) :=
  some (⟨0, by decide⟩, self)

/-- The member `insertPacket(termId, termOffset, buffer, length)`: `return 0;`.
The body reads none of its arguments and writes nothing. -/
def PublicationImage.insertPacket (self : PublicationImage)
    (_termId _termOffset : int32_t) (_buffer : AtomicBuffer) (_length : int32_t) :
    Option (int32_t × PublicationImage) :=
  some (⟨0, by decide⟩, self)

/-- The member `ifActiveGoInactive()`: the body is empty. -/
def PublicationImage.ifActiveGoInactive (self : PublicationImage) : Option PublicationImage :=
  some self

/-- The member `status(PublicationImageStatus status)`: the body is empty. -/
def PublicationImage.status (self : PublicationImage) (_status : PublicationImageStatus) :
    Option PublicationImage :=
  some self

/-- One packet as handed to `insertPacket`: its four arguments. -/
structure Packet where
  termId : int32_t
  termOffset : int32_t
  buffer : AtomicBuffer
  length : int32_t
deriving DecidableEq

/-- Calls `insertPacket` once per packet, in list order, on the image as the previous
call left it. Yields the returned counts, in call order, and the image after the last
call; `none` as soon as a call does not return normally. -/
def insertPackets (img : PublicationImage) : List Packet → Option (List int32_t × PublicationImage)
  | [] => some ([], img)
  | p :: ps =>
    match img.insertPacket p.termId p.termOffset p.buffer p.length with
    | none => none
    | some (n, img1) =>
      match insertPackets img1 ps with
      | none => none
      | some (ns, img2) => some (n :: ns, img2)

/-- One call of a mutating member of `PublicationImage`, with its arguments. -/
inductive Call where
  | insertPacket (termId termOffset : int32_t) (buffer : AtomicBuffer) (length : int32_t)
  | ifActiveGoInactive
  | status (status : PublicationImageStatus)
deriving DecidableEq

/-- Performs one call on the image and yields the image after it, the returned value
of `insertPacket` being dropped; `none` when the call does not return normally. -/
def Call.perform (img : PublicationImage) : Call → Option PublicationImage
  | .insertPacket termId termOffset buffer length =>
    (img.insertPacket termId termOffset buffer length).map Prod.snd
  | .ifActiveGoInactive => img.ifActiveGoInactive
  | .status s => img.status s

/-- Performs a finite sequence of calls in order, each on the image the previous one left. -/
def performCalls (img : PublicationImage) : List Call → Option PublicationImage
  | [] => some img
  | c :: cs =>
    match c.perform img with
    | none => none
    | some img1 => performCalls img1 cs

/-! ## Mocks.h: the interfaces of Receiver and DriverConductorProxy -/

/-- Modelled from the spec: the class `InetAddress` is named by `Mocks.h` but is not
among the sources. The specification calls it a network endpoint identifier that is
only passed through commands as a value; here it is a bare identifier. -/
structure InetAddress where
  id : Nat
deriving DecidableEq

/-- Modelled from the spec: `media/ReceiveChannelEndpoint.h` is not among the sources.
One bound UDP destination; commands and pending-setup entries hold a reference to it,
which is here its identity. -/
structure ReceiveChannelEndpoint where
  id : Nat
deriving DecidableEq

/-- The ten arguments of `createPublicationImage`, in the order of the signature that
`MockDriverConductorProxy` declares in `Mocks.h`. -/
structure CreatePublicationImageArgs where
  sessionId : int32_t
  streamId : int32_t
  initialTermId : int32_t
  activeTermId : int32_t
  termOffset : int32_t
  termLength : int32_t
  mtuLength : int32_t
  controlAddress : InetAddress
  srcAddress : InetAddress
  channelEndpoint : ReceiveChannelEndpoint
deriving DecidableEq

/-- Modelled from the spec: the command record is declared by `DriverConductorProxy.h`,
which is not among the sources. A tagged record of one control-plane action; the only
variant the specification gives is `CreatePublicationImage`, carrying sessionId, streamId,
initialTermId, activeTermId, termOffset, termLength, mtuLength, control address, source
address and the originating channel endpoint. -/
inductive Command where
  | CreatePublicationImage (sessionId streamId initialTermId activeTermId termOffset
      termLength mtuLength : int32_t) (controlAddress srcAddress : InetAddress)
      (channelEndpoint : ReceiveChannelEndpoint)
deriving DecidableEq

/-- The command that one call of `createPublicationImage` with arguments `a` describes. -/
def CreatePublicationImageArgs.toCommand (a : CreatePublicationImageArgs) : Command :=
  .CreatePublicationImage a.sessionId a.streamId a.initialTermId a.activeTermId a.termOffset
    a.termLength a.mtuLength a.controlAddress a.srcAddress a.channelEndpoint

/-- Modelled from the spec: `DriverConductorProxy.h` is not among the sources; only the
signature of `createPublicationImage` is, through `MockDriverConductorProxy`. The
specification describes the proxy as a bounded single-producer, single-consumer channel
of commands, delivered in the order enqueued, and leaves the queue-full policy to an
explicit choice between bounded backpressure and drop with a countable event. This model
takes the second: `queue` holds the commands not yet consumed, oldest first, at most
`capacity` of them, and `dropped` counts the calls that found the queue full. -/
structure DriverConductorProxy where
  capacity : Nat
  queue : List Command
  dropped : Nat
deriving DecidableEq

/-- Modelled from the spec: a proxy on construction, with nothing enqueued and nothing dropped. -/
def DriverConductorProxy.create (capacity : Nat) : DriverConductorProxy :=
  ⟨capacity, [], 0⟩

/-- Modelled from the spec: `createPublicationImage` of `DriverConductorProxy`, whose body
is not among the sources. It enqueues a `CreatePublicationImage` command carrying its ten
arguments behind the commands already queued and never blocks; when the queue is full the
command is dropped and the event counted. -/
def DriverConductorProxy.createPublicationImage (self : DriverConductorProxy)
    (sessionId streamId initialTermId activeTermId termOffset termLength mtuLength : int32_t)
    (controlAddress srcAddress : InetAddress) (channelEndpoint : ReceiveChannelEndpoint) :
    DriverConductorProxy :=
  if self.queue.length < self.capacity then
    ⟨self.capacity,
      self.queue ++ [.CreatePublicationImage sessionId streamId initialTermId activeTermId
        termOffset termLength mtuLength controlAddress srcAddress channelEndpoint],
      self.dropped⟩
  else
    ⟨self.capacity, self.queue, self.dropped + 1⟩

/-- Modelled from the spec: the consuming side of the proxy, which is the conductor and is
not among the sources. The single consumer takes the oldest queued command, if there is one. -/
def DriverConductorProxy.consume (self : DriverConductorProxy) :
    Option Command × DriverConductorProxy :=
  match self.queue with
  | [] => (none, self)
  | c :: rest => (some c, ⟨self.capacity, rest, self.dropped⟩)

/-- One step of a schedule of the two threads on a proxy: the data-plane thread calls
`createPublicationImage` with the given arguments, or the conductor consumes once. -/
inductive ProxyEvent where
  | call (args : CreatePublicationImageArgs)
  | consume
deriving DecidableEq

/-- The arguments of the `createPublicationImage` calls of a schedule, in call order. -/
def callsOf : List ProxyEvent → List CreatePublicationImageArgs
  | [] => []
  | .call a :: es => a :: callsOf es
  | .consume :: es => callsOf es

/-- A proxy together with the commands its consumer has observed so far, in the order
it observed them. -/
structure ProxyRun where
  proxy : DriverConductorProxy
  observed : List Command
deriving DecidableEq

/-- Performs one event of a schedule. -/
def ProxyRun.step (r : ProxyRun) : ProxyEvent → ProxyRun
  | .call a =>
    ⟨r.proxy.createPublicationImage a.sessionId a.streamId a.initialTermId a.activeTermId
      a.termOffset a.termLength a.mtuLength a.controlAddress a.srcAddress a.channelEndpoint,
      r.observed⟩
  | .consume =>
    match r.proxy.consume with
    | (none, p) => ⟨p, r.observed⟩
    | (some c, p) => ⟨p, r.observed ++ [c]⟩

/-- Performs a schedule, event after event. -/
def ProxyRun.run (r : ProxyRun) : List ProxyEvent → ProxyRun
  | [] => r
  | e :: es => (r.step e).run es

/-- Performs a schedule on a proxy as constructed with the given capacity, the consumer
having observed nothing yet. -/
def runSchedule (capacity : Nat) (events : List ProxyEvent) : ProxyRun :=
  (ProxyRun.mk (DriverConductorProxy.create capacity) []).run events

/-- Modelled from the spec: an entry of the pending-setup table of the Receiver, declared by
`Receiver.h`, which is not among the sources. Its key is (sessionId, streamId); its value is
the endpoint that first observed the session and the time of that first observation. -/
structure PendingSetupEntry where
  sessionId : int32_t
  streamId : int32_t
  endpoint : ReceiveChannelEndpoint
  timeOfFirstObservation : Nat
deriving DecidableEq

/-- Whether the entry is the one of key (sessionId, streamId). -/
def PendingSetupEntry.hasKey (e : PendingSetupEntry) (sessionId streamId : int32_t) : Bool :=
  decide (e.sessionId = sessionId) && decide (e.streamId = streamId)

/-- Modelled from the spec: `Receiver.h` is not among the sources; only the signature of
`addPendingSetupMessage` is, through `MockReceiver`. The Receiver owns the table of sessions
pending control-plane setup and forwards to the conductor through the proxy; `clock` is the
time it last read. The poll loop, the eliciting of setup messages and the expiry of entries
are not part of this model. -/
structure Receiver where
  pendingSetups : List PendingSetupEntry
  conductorProxy : DriverConductorProxy
  clock : Nat
deriving DecidableEq

/-- Modelled from the spec: `addPendingSetupMessage(sessionId, streamId, endpoint)` of
`Receiver`, whose body is not among the sources. It records that the session awaits
conductor-side image creation, and is idempotent per key: a key that is already pending is
left as it is, with the endpoint and time of its first observation. -/
def Receiver.addPendingSetupMessage (self : Receiver) (sessionId streamId : int32_t)
    (receiveChannelEndpoint : ReceiveChannelEndpoint) : Receiver :=
  if self.pendingSetups.any (fun e => e.hasKey sessionId streamId) then
    self
  else
    ⟨self.pendingSetups ++ [⟨sessionId, streamId, receiveChannelEndpoint, self.clock⟩],
      self.conductorProxy, self.clock⟩

/-- Sends one create-image command through the proxy for each of the given pending entries,
in table order, each command naming the endpoint of its entry as the originating one. -/
def sendCreateCommands (proxy : DriverConductorProxy)
    (initialTermId activeTermId termOffset termLength mtuLength : int32_t)
    (controlAddress srcAddress : InetAddress) : List PendingSetupEntry → DriverConductorProxy
  | [] => proxy
  | e :: es =>
    sendCreateCommands
      (proxy.createPublicationImage e.sessionId e.streamId initialTermId activeTermId termOffset
        termLength mtuLength controlAddress srcAddress e.endpoint)
      initialTermId activeTermId termOffset termLength mtuLength controlAddress srcAddress es

/-- Modelled from the spec: the step of `Receiver` by which a pending session ultimately
yields a create-image command, once the setup information (initial term, active term, term
offset, term length, MTU, addresses) is available; its code is not among the sources. Every
pending entry of the key sends one `createPublicationImage` through the proxy, so the table
holding a key twice would send two commands. The entries stay in the table: the
specification removes them only on the confirmation of the conductor or on expiry. -/
def Receiver.onSetupInformation (self : Receiver) (sessionId streamId : int32_t)
    (initialTermId activeTermId termOffset termLength mtuLength : int32_t)
    (controlAddress srcAddress : InetAddress) : Receiver :=
  ⟨self.pendingSetups,
    sendCreateCommands self.conductorProxy initialTermId activeTermId termOffset termLength
      mtuLength controlAddress srcAddress
      (self.pendingSetups.filter (fun e => e.hasKey sessionId streamId)),
    self.clock⟩

/-! ## Lemmas on PublicationImage -/

theorem insertPacket_eq (img : PublicationImage) (termId termOffset : int32_t)
    (buffer : AtomicBuffer) (length : int32_t) :
    img.insertPacket termId termOffset buffer length = some (⟨0, by decide⟩, img) := rfl

theorem insertPackets_eq (img : PublicationImage) (ps : List Packet) :
    insertPackets img ps = some (List.replicate ps.length ⟨0, by decide⟩, img) := by
  induction ps with
  | nil => rfl
  | cons p ps ih =>
    simp only [insertPackets, insertPacket_eq, ih, List.length_cons, List.replicate_succ]

theorem perform_eq (img : PublicationImage) (c : Call) : c.perform img = some img := by
  cases c <;> rfl

theorem performCalls_eq (img : PublicationImage) (calls : List Call) :
    performCalls img calls = some img := by
  induction calls with
  | nil => rfl
  | cons c cs ih => simp only [performCalls, perform_eq, ih]

/-! ## Properties of PublicationImage -/

/-- C1 (counterexample): on a freshly constructed image, `insertPacket(1, 0, buf, 128)` with a
buffer of 128 bytes returns 0, so it does not return the length 128. -/
theorem C1_insertPacket_fresh_returns_zero_not_length :
    (PublicationImage.mk.insertPacket ⟨1, by decide⟩ ⟨0, by decide⟩
        ⟨List.replicate 128 0⟩ ⟨128, by decide⟩).map (fun r => r.1.val) = some 0 ∧
    (PublicationImage.mk.insertPacket ⟨1, by decide⟩ ⟨0, by decide⟩
        ⟨List.replicate 128 0⟩ ⟨128, by decide⟩).map (fun r => r.1.val) ≠ some 128 := by
  constructor
  · rfl
  · intro h
    have h0 : (some (0 : Int)) = some 128 := h
    exact absurd (Option.some.inj h0) (by decide)

/-- C1 (amended): for every image and every packet with length > 0, wherever it lies,
`insertPacket` returns normally with the count 0, which differs from the length, and the
image after the call is the image before it. -/
theorem C1_insertPacket_positive_length_returns_zero (img : PublicationImage)
    (termId termOffset : int32_t) (buffer : AtomicBuffer) (length : int32_t)
    (h : 0 < length.val) :
    ∃ n : int32_t, img.insertPacket termId termOffset buffer length = some (n, img) ∧
      n.val = 0 ∧ n ≠ length := by
  refine ⟨⟨0, by decide⟩, insertPacket_eq img termId termOffset buffer length, rfl, ?_⟩
  intro hn
  rw [← hn] at h
  exact absurd h (by decide)

/-- Witness of C1 (amended): the packet (1, 0, buf, 128) on a fresh image. -/
theorem C1_insertPacket_positive_length_returns_zero_witness :
    ∃ n : int32_t,
      PublicationImage.mk.insertPacket ⟨1, by decide⟩ ⟨0, by decide⟩
        ⟨List.replicate 128 0⟩ ⟨128, by decide⟩ = some (n, PublicationImage.mk) ∧
      n.val = 0 ∧ n ≠ ⟨128, by decide⟩ :=
  C1_insertPacket_positive_length_returns_zero PublicationImage.mk ⟨1, by decide⟩ ⟨0, by decide⟩
    ⟨List.replicate 128 0⟩ ⟨128, by decide⟩ (by decide)

/-- C2: for every image and every (termId, termOffset, buffer, length), two calls of
`insertPacket` in a row with these arguments both return normally, and the second returns 0. -/
theorem C2_insertPacket_repeated_returns_zero (img : PublicationImage)
    (termId termOffset : int32_t) (buffer : AtomicBuffer) (length : int32_t) :
    ∃ (n1 n2 : int32_t) (img1 img2 : PublicationImage),
      img.insertPacket termId termOffset buffer length = some (n1, img1) ∧
      img1.insertPacket termId termOffset buffer length = some (n2, img2) ∧
      n2.val = 0 :=
  ⟨⟨0, by decide⟩, ⟨0, by decide⟩, img, img,
    insertPacket_eq img termId termOffset buffer length,
    insertPacket_eq img termId termOffset buffer length, rfl⟩

/-- C3 (counterexample): `status(LINGER)` on a freshly constructed image returns normally and
leaves the image as it was; and there is no way to read a status off an image under which
`status(LINGER)` is rejected from every status other than INACTIVE and moves an INACTIVE
image to LINGER. -/
theorem C3_status_linger_never_rejected :
    PublicationImage.mk.status .LINGER = some PublicationImage.mk ∧
    ¬ ∃ st : PublicationImage → PublicationImageStatus, ∀ img : PublicationImage,
        (st img ≠ .INACTIVE → img.status .LINGER = none) ∧
        (st img = .INACTIVE →
          ∃ img1, img.status .LINGER = some img1 ∧ st img1 = .LINGER) := by
  refine ⟨rfl, ?_⟩
  rintro ⟨st, h⟩
  obtain ⟨h1, h2⟩ := h PublicationImage.mk
  by_cases hs : st PublicationImage.mk = .INACTIVE
  · obtain ⟨img1, _, h4⟩ := h2 hs
    have : img1 = PublicationImage.mk := rfl
    rw [this, hs] at h4
    exact absurd h4 (by decide)
  · exact absurd (h1 hs) (by simp [PublicationImage.status])

/-- C3 (amended): `status(LINGER)` returns normally on every image, whatever status is read
off it (INIT, ACTIVE, INACTIVE or LINGER): it is never rejected, and the image and any
status read off it are after the call what they were before it. -/
theorem C3_status_linger_accepted_unchanged (st : PublicationImage → PublicationImageStatus)
    (img : PublicationImage) :
    ∃ img1, img.status .LINGER = some img1 ∧ img1 = img ∧ st img1 = st img :=
  ⟨img, rfl, rfl, rfl⟩

/-- C5 (counterexample): the single packet (1, 0, buf, 128) covers the range from 0 to 128;
inserting it into a constructed image returns the count 0 and the image as it was; and
however an expected position is read off an image, no image that reads 0 before the packet
is inserted reads 128, the end of the range, after it. -/
theorem C5_expected_position_not_advanced :
    insertPackets PublicationImage.mk
        [⟨⟨1, by decide⟩, ⟨0, by decide⟩, ⟨List.replicate 128 0⟩, ⟨128, by decide⟩⟩]
      = some ([⟨0, by decide⟩], PublicationImage.mk) ∧
    ¬ ∃ (pos : PublicationImage → Int) (img img1 : PublicationImage) (ns : List int32_t),
        pos img = 0 ∧
        insertPackets img
          [⟨⟨1, by decide⟩, ⟨0, by decide⟩, ⟨List.replicate 128 0⟩, ⟨128, by decide⟩⟩]
          = some (ns, img1) ∧
        pos img1 = 128 := by
  refine ⟨rfl, ?_⟩
  rintro ⟨pos, img, img1, ns, h1, _, h3⟩
  have : img1 = img := rfl
  rw [this, h1] at h3
  exact absurd h3 (by decide)

/-- C5 (amended): for every list of packets and every permutation of it, inserting the
packets in either order returns normally, every call returning 0, and ends in the same
image, which is the image before the insertions: the order of delivery has no effect, and
nothing read off the image advances. -/
theorem C5_insertPackets_order_irrelevant (img : PublicationImage) (ps qs : List Packet)
    (h : ps.Perm qs) :
    insertPackets img ps = some (List.replicate ps.length ⟨0, by decide⟩, img) ∧
    insertPackets img qs = insertPackets img ps := by
  refine ⟨insertPackets_eq img ps, ?_⟩
  rw [insertPackets_eq, insertPackets_eq, h.length_eq]

/-- Witness of C5 (amended): the packets (1, 0, buf, 128) and (1, 128, buf, 128), in
either order. -/
theorem C5_insertPackets_order_irrelevant_witness :
    insertPackets PublicationImage.mk
        [⟨⟨1, by decide⟩, ⟨128, by decide⟩, ⟨List.replicate 128 0⟩, ⟨128, by decide⟩⟩,
         ⟨⟨1, by decide⟩, ⟨0, by decide⟩, ⟨List.replicate 128 0⟩, ⟨128, by decide⟩⟩]
      = some (List.replicate 2 ⟨0, by decide⟩, PublicationImage.mk) ∧
    insertPackets PublicationImage.mk
        [⟨⟨1, by decide⟩, ⟨0, by decide⟩, ⟨List.replicate 128 0⟩, ⟨128, by decide⟩⟩,
         ⟨⟨1, by decide⟩, ⟨128, by decide⟩, ⟨List.replicate 128 0⟩, ⟨128, by decide⟩⟩]
      = insertPackets PublicationImage.mk
        [⟨⟨1, by decide⟩, ⟨128, by decide⟩, ⟨List.replicate 128 0⟩, ⟨128, by decide⟩⟩,
         ⟨⟨1, by decide⟩, ⟨0, by decide⟩, ⟨List.replicate 128 0⟩, ⟨128, by decide⟩⟩] :=
  C5_insertPackets_order_irrelevant PublicationImage.mk _ _ (List.Perm.swap _ _ [])

/-- C6: for every image, every int32 termId, termOffset and length (negative ones included)
and every buffer, `insertPacket` returns normally, with a value of the int32 range. -/
theorem C6_insertPacket_never_fails (img : PublicationImage) (termId termOffset : int32_t)
    (buffer : AtomicBuffer) (length : int32_t) :
    ∃ (n : int32_t) (img1 : PublicationImage),
      img.insertPacket termId termOffset buffer length = some (n, img1) ∧
      INT32_MIN ≤ n.val ∧ n.val ≤ INT32_MAX :=
  ⟨⟨0, by decide⟩, img, insertPacket_eq img termId termOffset buffer length, by decide, by decide⟩

/-- C7: for every image and every finite sequence of `insertPacket`, `ifActiveGoInactive`
and `status` calls, the sequence returns normally, `sessionId()` and `streamId()` return
after it the values they return before it, and each accessor leaves the image it is called
on as it was. -/
theorem C7_sessionId_streamId_immutable (img : PublicationImage) (calls : List Call) :
    ∃ (img1 : PublicationImage) (session stream : int32_t),
      performCalls img calls = some img1 ∧
      img.sessionId = some (session, img) ∧ img1.sessionId = some (session, img1) ∧
      img.streamId = some (stream, img) ∧ img1.streamId = some (stream, img1) :=
  ⟨img, ⟨0, by decide⟩, ⟨0, by decide⟩, performCalls_eq img calls, rfl, rfl, rfl, rfl⟩

/-- C10: after every finite sequence of `insertPacket`, `ifActiveGoInactive` and `status`
calls on an image, `insertPacket` returns 0 for every termId, termOffset, buffer and length,
`sessionId()` and `streamId()` return 0, and each of the five members leaves the image as
it was, so that `ifActiveGoInactive()` and `status(s)` change no result of any of them. -/
theorem C10_base_image_inert (img : PublicationImage) (calls : List Call) :
    ∃ img1 : PublicationImage, performCalls img calls = some img1 ∧
      (∀ (termId termOffset : int32_t) (buffer : AtomicBuffer) (length : int32_t),
        img1.insertPacket termId termOffset buffer length = some (⟨0, by decide⟩, img1)) ∧
      img1.sessionId = some (⟨0, by decide⟩, img1) ∧
      img1.streamId = some (⟨0, by decide⟩, img1) ∧
      img1.ifActiveGoInactive = some img1 ∧
      ∀ s : PublicationImageStatus, img1.status s = some img1 :=
  ⟨img, performCalls_eq img calls, fun _ _ _ _ => rfl, rfl, rfl, rfl, fun _ => rfl⟩

/-! ## Lemmas on DriverConductorProxy -/

theorem step_call_room (r : ProxyRun) (a : CreatePublicationImageArgs)
    (h : r.proxy.queue.length < r.proxy.capacity) :
    r.step (.call a) = ⟨⟨r.proxy.capacity, r.proxy.queue ++ [a.toCommand], r.proxy.dropped⟩,
      r.observed⟩ := by
  simp [ProxyRun.step, DriverConductorProxy.createPublicationImage, h,
    CreatePublicationImageArgs.toCommand]

theorem step_call_full (r : ProxyRun) (a : CreatePublicationImageArgs)
    (h : ¬ r.proxy.queue.length < r.proxy.capacity) :
    r.step (.call a) = ⟨⟨r.proxy.capacity, r.proxy.queue, r.proxy.dropped + 1⟩, r.observed⟩ := by
  simp [ProxyRun.step, DriverConductorProxy.createPublicationImage, h]

theorem step_consume_delivered (r : ProxyRun) :
    (r.step .consume).observed ++ (r.step .consume).proxy.queue = r.observed ++ r.proxy.queue ∧
    (r.step .consume).proxy.dropped = r.proxy.dropped := by
  obtain ⟨⟨capacity, queue, dropped⟩, observed⟩ := r
  cases queue with
  | nil => simp [ProxyRun.step, DriverConductorProxy.consume]
  | cons c rest => simp [ProxyRun.step, DriverConductorProxy.consume]

theorem run_delivered (es : List ProxyEvent) :
    ∀ (r : ProxyRun) (cs : List CreatePublicationImageArgs),
      (r.observed ++ r.proxy.queue).Sublist (cs.map CreatePublicationImageArgs.toCommand) →
      (r.observed ++ r.proxy.queue).length + r.proxy.dropped = cs.length →
      ((r.run es).observed ++ (r.run es).proxy.queue).Sublist
          ((cs ++ callsOf es).map CreatePublicationImageArgs.toCommand) ∧
        ((r.run es).observed ++ (r.run es).proxy.queue).length + (r.run es).proxy.dropped
          = (cs ++ callsOf es).length := by
  induction es with
  | nil =>
    intro r cs hsub hlen
    simp only [ProxyRun.run, callsOf, List.append_nil]
    exact ⟨hsub, hlen⟩
  | cons e es ih =>
    intro r cs hsub hlen
    cases e with
    | call a =>
      have key : cs ++ callsOf (ProxyEvent.call a :: es) = (cs ++ [a]) ++ callsOf es := by
        simp [callsOf]
      rw [key, show r.run (ProxyEvent.call a :: es) = (r.step (.call a)).run es from rfl]
      by_cases hroom : r.proxy.queue.length < r.proxy.capacity
      · rw [step_call_room r a hroom]
        apply ih
        · have : r.observed ++ (r.proxy.queue ++ [a.toCommand])
              = (r.observed ++ r.proxy.queue) ++ [a.toCommand] := by simp
          simp only [this, List.map_append, List.map_cons, List.map_nil]
          exact List.Sublist.append hsub (List.Sublist.refl _)
        · simp only [List.length_append, List.length_cons, List.length_nil] at hlen ⊢
          omega
      · rw [step_call_full r a hroom]
        apply ih
        · simp only [List.map_append]
          exact hsub.trans (List.sublist_append_left _ _)
        · simp only [List.length_append, List.length_cons, List.length_nil] at hlen ⊢
          omega
    | consume =>
      have key : cs ++ callsOf (ProxyEvent.consume :: es) = cs ++ callsOf es := by
        simp [callsOf]
      rw [key, show r.run (ProxyEvent.consume :: es) = (r.step .consume).run es from rfl]
      obtain ⟨h1, h2⟩ := step_consume_delivered r
      apply ih
      · rw [h1]; exact hsub
      · rw [h1, h2]; exact hlen

/-! ## Properties of DriverConductorProxy -/

/-- C8: on a proxy of any capacity, after any schedule of N `createPublicationImage` calls
by the data-plane thread, interleaved in any way with consuming steps of the conductor, the
commands the consumer has observed, followed by those still queued, are commands of the
calls, each carrying the ten arguments of its call, in the order of the calls; their number
and the number of dropped calls add up to N; when no call was dropped they are the commands
of all N calls in call order; and when moreover the queue has been drained, the consumer has
observed exactly the commands of the N calls, in call order. -/
theorem C8_proxy_commands_in_call_order (capacity : Nat) (events : List ProxyEvent) :
    List.Sublist
      ((runSchedule capacity events).observed ++ (runSchedule capacity events).proxy.queue)
      ((callsOf events).map CreatePublicationImageArgs.toCommand) ∧
    ((runSchedule capacity events).observed ++ (runSchedule capacity events).proxy.queue).length
      + (runSchedule capacity events).proxy.dropped = (callsOf events).length ∧
    ((runSchedule capacity events).proxy.dropped = 0 →
      (runSchedule capacity events).observed ++ (runSchedule capacity events).proxy.queue
        = (callsOf events).map CreatePublicationImageArgs.toCommand) ∧
    ((runSchedule capacity events).proxy.dropped = 0 →
      (runSchedule capacity events).proxy.queue = [] →
      (runSchedule capacity events).observed
        = (callsOf events).map CreatePublicationImageArgs.toCommand) := by
  have h := run_delivered events (ProxyRun.mk (DriverConductorProxy.create capacity) []) []
    (by simp [DriverConductorProxy.create]) (by simp [DriverConductorProxy.create])
  simp only [List.nil_append] at h
  have hall : (runSchedule capacity events).proxy.dropped = 0 →
      (runSchedule capacity events).observed ++ (runSchedule capacity events).proxy.queue
        = (callsOf events).map CreatePublicationImageArgs.toCommand := by
    intro h0
    apply h.1.eq_of_length
    have h2 := h.2
    rw [show ((ProxyRun.mk (DriverConductorProxy.create capacity) []).run events)
      = runSchedule capacity events from rfl, h0] at h2
    simpa using h2
  refine ⟨h.1, h.2, hall, fun h0 hq => ?_⟩
  have h3 := hall h0
  rw [hq, List.append_nil] at h3
  exact h3

/-- Witness of C8: two calls, for sessions 7 and 8, on a proxy of capacity 2, then two
consuming steps: no call is dropped, the queue is drained, and the consumer has observed
the two commands in call order. -/
theorem C8_proxy_commands_in_call_order_witness :
    (runSchedule 2
      [.call
          ⟨⟨7, by decide⟩, ⟨3, by decide⟩, ⟨1, by decide⟩, ⟨1, by decide⟩, ⟨0, by decide⟩,
          ⟨65536, by decide⟩, ⟨1408, by decide⟩, ⟨1⟩, ⟨2⟩, ⟨0⟩⟩,
        .call
          ⟨⟨8, by decide⟩, ⟨3, by decide⟩, ⟨1, by decide⟩, ⟨1, by decide⟩, ⟨0, by decide⟩,
          ⟨65536, by decide⟩, ⟨1408, by decide⟩, ⟨1⟩, ⟨3⟩, ⟨0⟩⟩,
        .consume, .consume]).proxy.dropped = 0 ∧
    (runSchedule 2
      [.call
          ⟨⟨7, by decide⟩, ⟨3, by decide⟩, ⟨1, by decide⟩, ⟨1, by decide⟩, ⟨0, by decide⟩,
          ⟨65536, by decide⟩, ⟨1408, by decide⟩, ⟨1⟩, ⟨2⟩, ⟨0⟩⟩,
        .call
          ⟨⟨8, by decide⟩, ⟨3, by decide⟩, ⟨1, by decide⟩, ⟨1, by decide⟩, ⟨0, by decide⟩,
          ⟨65536, by decide⟩, ⟨1408, by decide⟩, ⟨1⟩, ⟨3⟩, ⟨0⟩⟩,
        .consume, .consume]).proxy.queue = [] ∧
    (runSchedule 2
      [.call
          ⟨⟨7, by decide⟩, ⟨3, by decide⟩, ⟨1, by decide⟩, ⟨1, by decide⟩, ⟨0, by decide⟩,
          ⟨65536, by decide⟩, ⟨1408, by decide⟩, ⟨1⟩, ⟨2⟩, ⟨0⟩⟩,
        .call
          ⟨⟨8, by decide⟩, ⟨3, by decide⟩, ⟨1, by decide⟩, ⟨1, by decide⟩, ⟨0, by decide⟩,
          ⟨65536, by decide⟩, ⟨1408, by decide⟩, ⟨1⟩, ⟨3⟩, ⟨0⟩⟩,
        .consume, .consume]).observed
    = (callsOf
      [.call
          ⟨⟨7, by decide⟩, ⟨3, by decide⟩, ⟨1, by decide⟩, ⟨1, by decide⟩, ⟨0, by decide⟩,
          ⟨65536, by decide⟩, ⟨1408, by decide⟩, ⟨1⟩, ⟨2⟩, ⟨0⟩⟩,
        .call
          ⟨⟨8, by decide⟩, ⟨3, by decide⟩, ⟨1, by decide⟩, ⟨1, by decide⟩, ⟨0, by decide⟩,
          ⟨65536, by decide⟩, ⟨1408, by decide⟩, ⟨1⟩, ⟨3⟩, ⟨0⟩⟩,
        .consume, .consume]).map CreatePublicationImageArgs.toCommand :=
  ⟨by decide, by decide,
    (C8_proxy_commands_in_call_order 2 _).2.2.2 (by decide) (by decide)⟩

/-! ## Lemmas on Receiver -/

theorem hasKey_self (sessionId streamId : int32_t) (endpoint : ReceiveChannelEndpoint)
    (time : Nat) :
    (PendingSetupEntry.mk sessionId streamId endpoint time).hasKey sessionId streamId = true := by
  simp [PendingSetupEntry.hasKey]

theorem addPendingSetupMessage_new (r : Receiver) (sessionId streamId : int32_t)
    (endpoint : ReceiveChannelEndpoint)
    (h : r.pendingSetups.any (fun e => e.hasKey sessionId streamId) = false) :
    r.addPendingSetupMessage sessionId streamId endpoint
      = ⟨r.pendingSetups ++ [⟨sessionId, streamId, endpoint, r.clock⟩], r.conductorProxy,
          r.clock⟩ := by
  simp [Receiver.addPendingSetupMessage, h]

theorem addPendingSetupMessage_pending (r : Receiver) (sessionId streamId : int32_t)
    (endpoint : ReceiveChannelEndpoint)
    (h : r.pendingSetups.any (fun e => e.hasKey sessionId streamId) = true) :
    r.addPendingSetupMessage sessionId streamId endpoint = r := by
  simp only [Receiver.addPendingSetupMessage, h, if_true]

theorem addPendingSetupMessage_makes_pending (r : Receiver) (sessionId streamId : int32_t)
    (endpoint : ReceiveChannelEndpoint) :
    (r.addPendingSetupMessage sessionId streamId endpoint).pendingSetups.any
      (fun e => e.hasKey sessionId streamId) = true := by
  cases h : r.pendingSetups.any (fun e => e.hasKey sessionId streamId) with
  | true => rw [addPendingSetupMessage_pending r sessionId streamId endpoint h]; exact h
  | false =>
    rw [addPendingSetupMessage_new r sessionId streamId endpoint h]
    simp [hasKey_self]

theorem filter_hasKey_of_not_pending (entries : List PendingSetupEntry)
    (sessionId streamId : int32_t)
    (h : entries.any (fun e => e.hasKey sessionId streamId) = false) :
    entries.filter (fun e => e.hasKey sessionId streamId) = [] := by
  induction entries with
  | nil => rfl
  | cons e es ih =>
    simp only [List.any_cons, Bool.or_eq_false_iff] at h
    simp only [List.filter_cons, h.1, ih h.2]
    rfl

/-! ## Properties of Receiver -/

/-- C9: for every receiver in which the key (sessionId, streamId) is not yet pending and whose
proxy has room, and for every two endpoints, calling `addPendingSetupMessage` twice for the
key leaves the receiver as the first call left it, with exactly one pending entry for the key
(that of the first call) and with the proxy untouched; and when the setup information then
arrives, exactly one create-image command, naming the first endpoint, is enqueued on the
proxy behind the commands already queued, and none is dropped. -/
theorem C9_addPendingSetupMessage_idempotent (r : Receiver) (sessionId streamId : int32_t)
    (endpoint1 endpoint2 : ReceiveChannelEndpoint)
    (initialTermId activeTermId termOffset termLength mtuLength : int32_t)
    (controlAddress srcAddress : InetAddress)
    (hnew : r.pendingSetups.any (fun e => e.hasKey sessionId streamId) = false)
    (hroom : r.conductorProxy.queue.length < r.conductorProxy.capacity) :
    ((r.addPendingSetupMessage sessionId streamId endpoint1).addPendingSetupMessage
        sessionId streamId endpoint2
      = r.addPendingSetupMessage sessionId streamId endpoint1) ∧
    (((r.addPendingSetupMessage sessionId streamId endpoint1).addPendingSetupMessage
        sessionId streamId endpoint2).pendingSetups.filter
          (fun e => e.hasKey sessionId streamId)
      = [⟨sessionId, streamId, endpoint1, r.clock⟩]) ∧
    (((r.addPendingSetupMessage sessionId streamId endpoint1).addPendingSetupMessage
        sessionId streamId endpoint2).conductorProxy = r.conductorProxy) ∧
    ((((r.addPendingSetupMessage sessionId streamId endpoint1).addPendingSetupMessage
        sessionId streamId endpoint2).onSetupInformation sessionId streamId initialTermId
          activeTermId termOffset termLength mtuLength controlAddress srcAddress).conductorProxy
      = ⟨r.conductorProxy.capacity,
          r.conductorProxy.queue ++ [.CreatePublicationImage sessionId streamId initialTermId
            activeTermId termOffset termLength mtuLength controlAddress srcAddress endpoint1],
          r.conductorProxy.dropped⟩) := by
  have hidem : (r.addPendingSetupMessage sessionId streamId endpoint1).addPendingSetupMessage
        sessionId streamId endpoint2
      = r.addPendingSetupMessage sessionId streamId endpoint1 :=
    addPendingSetupMessage_pending _ _ _ _
      (addPendingSetupMessage_makes_pending r sessionId streamId endpoint1)
  have hfilter : List.filter (fun e : PendingSetupEntry => e.hasKey sessionId streamId)
        (r.pendingSetups ++ [PendingSetupEntry.mk sessionId streamId endpoint1 r.clock])
      = [PendingSetupEntry.mk sessionId streamId endpoint1 r.clock] := by
    rw [List.filter_append, filter_hasKey_of_not_pending _ _ _ hnew]
    simp [List.filter_cons, hasKey_self]
  rw [hidem, addPendingSetupMessage_new r sessionId streamId endpoint1 hnew]
  refine ⟨rfl, hfilter, rfl, ?_⟩
  simp only [Receiver.onSetupInformation, hfilter, sendCreateCommands,
    DriverConductorProxy.createPublicationImage, hroom, if_true]

/-- Witness of C9: session 7, stream 3 on a receiver with an empty table and an empty proxy
of capacity 4, observed first by endpoint 0 and then by endpoint 1. -/
theorem C9_addPendingSetupMessage_idempotent_witness :
    (((Receiver.mk [] (DriverConductorProxy.create 4) 0).addPendingSetupMessage
        ⟨7, by decide⟩ ⟨3, by decide⟩ ⟨0⟩).addPendingSetupMessage ⟨7, by decide⟩ ⟨3, by decide⟩ ⟨1⟩
      = (Receiver.mk [] (DriverConductorProxy.create 4) 0).addPendingSetupMessage
        ⟨7, by decide⟩ ⟨3, by decide⟩ ⟨0⟩) ∧
    ((((Receiver.mk [] (DriverConductorProxy.create 4) 0).addPendingSetupMessage
        ⟨7, by decide⟩ ⟨3, by decide⟩ ⟨0⟩).addPendingSetupMessage ⟨7, by decide⟩ ⟨3, by decide⟩
          ⟨1⟩).onSetupInformation ⟨7, by decide⟩ ⟨3, by decide⟩ ⟨1, by decide⟩ ⟨1, by decide⟩
          ⟨0, by decide⟩ ⟨65536, by decide⟩ ⟨1408, by decide⟩ ⟨1⟩ ⟨2⟩).conductorProxy
      = ⟨4, [.CreatePublicationImage ⟨7, by decide⟩ ⟨3, by decide⟩ ⟨1, by decide⟩ ⟨1, by decide⟩
          ⟨0, by decide⟩ ⟨65536, by decide⟩ ⟨1408, by decide⟩ ⟨1⟩ ⟨2⟩ ⟨0⟩], 0⟩ :=
  have h := C9_addPendingSetupMessage_idempotent (Receiver.mk [] (DriverConductorProxy.create 4) 0)
    ⟨7, by decide⟩ ⟨3, by decide⟩ ⟨0⟩ ⟨1⟩ ⟨1, by decide⟩ ⟨1, by decide⟩ ⟨0, by decide⟩
    ⟨65536, by decide⟩ ⟨1408, by decide⟩ ⟨1⟩ ⟨2⟩ (by decide) (by decide)
  ⟨h.1, h.2.2.2⟩

end aeron.driver
